import Mathlib

/-!
Verification development for the DAILY-DIESEL repository.

The ledger engine is shallowly embedded from the Python sources:
`update_sheet` (src/main.py), `update_sheet_with_backfill` and its
row-appending helpers (src/main_daily.py), the heartbeat writer
(src/main.py, src/main_daily.py) together with the status reader
(src/gui.py), and the unit conversion of src/src/collectors.py.

Modelling conventions:
* Calendar dates (ISO `YYYY-MM-DD` strings in the source, compared
  lexicographically, which for such strings is chronological order) are
  modelled as day numbers (`Nat`), with day 0 chosen to be a Monday so
  that the pandas weekday (Monday = 0 .. Sunday = 6) is the residue mod 7.
* Prices are `Rat` (the source uses Python floats; no claim here depends
  on rounding, only on the exact arithmetic expressions the code forms).
* A pandas `DataFrame` of ledger rows is a `List Row` in sheet order;
  `pd.NA` cells of the spread columns are `Option.none`.
* Derived columns (`Semana Anual`, the daily variations and the moving
  averages) are recomputed from scratch by `_compute_metrics` after every
  mutation, so they are modelled as functions of the stored rows
  (`rollingMean` below) instead of stored fields.
-/

namespace DailyDiesel

/-- Weekday of a day number, Monday = 0 .. Sunday = 6 (pandas convention);
day 0 is fixed as a Monday. -/
def weekday (d : Nat) : Nat := d % 7

/-- ScheduleRule: the email-day test of src/main.py lines 126-130 and
src/main_daily.py lines 89-93. True iff the date falls on the configured
weekday `target` (EMAIL_DAY, default Friday = 4). -/
def isEmailDay (target d : Nat) : Bool := weekday d == target

/-- Email-day policy of src/main_daily.py lines 95-102: when `useExecDay`
is true (the default, USE_EXECUTION_DAY_FOR_EMAIL=1) the decision is made
on the execution day `today`, ignoring the supplied reference date;
otherwise it is made on the reference date itself. -/
def shouldSendEmail (target : Nat) (useExecDay : Bool) (today refDate : Nat) : Bool :=
  if useExecDay then isEmailDay target today else isEmailDay target refDate

/-- Stored fields of one ledger row ("Data", "Petróleo Barril (USD)",
"Diesel Barril (USD)", "E-mail Flag", "Spread Absoluto Semanal (USD)",
"Diferença Relativa Semanal (%)"). -/
structure Row where
  data : Nat
  petroleo : Rat
  diesel : Rat
  emailFlag : Nat
  spreadAbs : Option Rat
  spreadPct : Option Rat
deriving DecidableEq

/-- Fresh ledger row: `new_row` of src/main.py lines 238-256 and
`_append_row` of src/main_daily.py lines 169-188. The spread cells are
populated exactly when the email flag is 1, with
spread_abs = diesel - brent and spread_pct = diesel / brent - 1. -/
def mkNewRow (refDate : Nat) (brent diesel : Rat) (flag : Nat) : Row :=
  { data := refDate
    petroleo := brent
    diesel := diesel
    emailFlag := flag
    spreadAbs := if flag = 1 then some (diesel - brent) else none
    spreadPct := if flag = 1 then some (diesel / brent - 1) else none }

/-- Refresh of a pre-existing row on an email day (src/main.py lines
226-229, src/main_daily.py lines 217-220): the flag is forced to 1 and
both spreads are recomputed from the newly supplied values; the date and
the stored prices are untouched. -/
def refreshSpread (r : Row) (brent diesel : Rat) : Row :=
  { r with
    emailFlag := 1
    spreadAbs := some (diesel - brent)
    spreadPct := some (diesel / brent - 1) }

/-- In-place update of the last row carrying `refDate` (the source picks
`idx[-1]`, the last matching positional index). -/
def updateLastRow (df : List Row) (refDate : Nat) (brent diesel : Rat) : List Row :=
  match df with
  | [] => []
  | r :: rs =>
    if rs.any (fun s => s.data == refDate) then r :: updateLastRow rs refDate brent diesel
    else if r.data == refDate then refreshSpread r brent diesel :: rs
    else r :: rs

/-- Merge of one observation pair, `update_sheet` of src/main.py lines
206-265: the reference date is the later of the two per-series dates; if a
row for it already exists, no row is added (and on an email day the last
matching row's flag and spreads are refreshed from the supplied values),
otherwise a fresh row is appended at the end. -/
def updateSheet (target : Nat) (df : List Row) (brentDate : Nat) (brent : Rat)
    (dieselDate : Nat) (diesel : Rat) : List Row :=
  let refDate := max brentDate dieselDate
  if df.any (fun r => r.data == refDate) then
    if isEmailDay target refDate then updateLastRow df refDate brent diesel else df
  else
    df ++ [mkNewRow refDate brent diesel (if isEmailDay target refDate then 1 else 0)]

/-- Synthetic rows produced by the while loop of
`update_sheet_with_backfill`, src/main_daily.py lines 232-237: one row per
day `cur` = lastDate+1 .. today (the loop runs while cur <= today), each
carrying the latest fetched prices verbatim and a flag decided by
`_should_send_email` applied to `cur`. -/
def backfillRows (target : Nat) (useExecDay : Bool) (today : Nat) (brent diesel : Rat)
    (lastDate : Nat) : List Row :=
  (List.range (today - lastDate)).map fun k =>
    mkNewRow (lastDate + 1 + k) brent diesel
      (if shouldSendEmail target useExecDay today (lastDate + 1 + k) then 1 else 0)

/-- Largest date present in the sheet (`max(...dt.date)` over the Data
column; the source only evaluates it on a nonempty sheet). -/
def maxDate (df : List Row) : Nat := (df.map (fun r => r.data)).foldl max 0

/-- Daily merge with catch-up, `update_sheet_with_backfill` of
src/main_daily.py lines 190-245: step 1 inserts or refreshes the row of
the reference date, step 2 appends one forward-filled row per day between
the sheet's (new) last date and today. -/
def updateSheetWithBackfill (target : Nat) (useExecDay : Bool) (today : Nat)
    (df : List Row) (brentDate : Nat) (brent : Rat) (dieselDate : Nat) (diesel : Rat) :
    List Row :=
  let refDate := max brentDate dieselDate
  let df1 :=
    if df.any (fun r => r.data == refDate) then
      if shouldSendEmail target useExecDay today refDate then
        updateLastRow df refDate brent diesel
      else df
    else
      df ++ [mkNewRow refDate brent diesel
        (if shouldSendEmail target useExecDay today refDate then 1 else 0)]
  let lastDate := if df1 = [] then refDate else maxDate df1
  df1 ++ backfillRows target useExecDay today brent diesel lastDate

/-- Benchmark price column of the sheet, the series the moving averages of
`_compute_metrics` are taken over. -/
def prices (df : List Row) : List Rat := df.map (fun r => r.petroleo)

/-- Trailing rolling mean with window `w` and min_periods = `w`
(`.rolling(w, min_periods=w).mean()`, src/main.py lines 152-155 and
src/main_daily.py lines 124-127): position i holds the mean of the last
`w` entries of the length-(i+1) prefix, and is NA while fewer than `w`
entries exist. The price column is always fully populated, so
min_periods reduces to the prefix-length test. -/
def rollingMean (w : Nat) (xs : List Rat) : List (Option Rat) :=
  (List.range xs.length).map fun i =>
    if w ≤ i + 1 then some (((xs.take (i + 1)).drop (i + 1 - w)).sum / (w : Rat)) else none

/-- Column "Média Móvel semanal Petróleo" recomputed by
`_compute_metrics`. -/
def benchmarkMa7 (df : List Row) : List (Option Rat) := rollingMean 7 (prices df)

/-- Column "Média móvel mensal Petróleo" recomputed by
`_compute_metrics`. -/
def benchmarkMa30 (df : List Row) : List (Option Rat) := rollingMean 30 (prices df)

/-- Heartbeat record (runtime/heartbeat.json). The source stores dates as
strings and encodes an absent/cleared field as the empty string, which the
reader of src/gui.py lines 46-47 maps back to "absent" (`or ""` plus
truthiness); both representations are modelled as `Option.none`. -/
structure Heartbeat where
  lastRun : Option Nat
  lastSuccess : Option Nat
  lastError : Option Nat
  lastErrorMsg : String
deriving DecidableEq

/-- Heartbeat store before the first write (missing file). -/
def emptyHeartbeat : Heartbeat :=
  { lastRun := none, lastSuccess := none, lastError := none, lastErrorMsg := "" }

/-- Heartbeat writer `_write_heartbeat` of src/main.py lines 171-201 (the
src/main_daily.py copy at lines 138-164 is identical in these fields): on
success, last_success is set to today and the error fields are cleared; on
failure, last_error and the message are set and last_success is left
untouched. -/
def writeHeartbeat (success : Bool) (errorMsg : Option String) (now today : Nat)
    (hb : Heartbeat) : Heartbeat :=
  let hb1 := { hb with lastRun := some now }
  if success then
    { hb1 with lastSuccess := some today, lastError := none, lastErrorMsg := "" }
  else
    { hb1 with lastError := some today, lastErrorMsg := errorMsg.getD "Erro nao especificado" }

/-- Observable run status derived from the heartbeat by the monitoring
surface. -/
inductive Status
  | operational
  | degraded
  | unknown
deriving DecidableEq

/-- Status reader `status_from_heartbeat` of src/gui.py lines 40-52:
green (operational) iff last_success is present and last_error is absent
or strictly older; red (degraded) iff last_error is present and
last_success is absent or not newer; gray (unknown) otherwise. -/
def statusFromHeartbeat (hb : Heartbeat) : Status :=
  match hb.lastSuccess, hb.lastError with
  | some _, none => Status.operational
  | some s, some e => if e < s then Status.operational else Status.degraded
  | none, some _ => Status.degraded
  | none, none => Status.unknown

/-- Fixed unit-conversion constant of src/src/collectors.py line 8 (also
GAL_TO_BBL in src/main.py line 20 and src/main_daily.py line 20). -/
def GALLON_PER_BARREL : Rat := 42

/-- Diesel unit conversion of `get_today_prices_from_env`,
src/src/collectors.py lines 109-115: "GAL" multiplies by the
gallons-per-barrel constant, "BBL" is the identity, and any other unit
silently falls back to the "GAL" behaviour. -/
def dieselUsdBbl (value : Rat) (unit : String) : Rat :=
  if unit = "GAL" then value * GALLON_PER_BARREL
  else if unit = "BBL" then value
  else value * GALLON_PER_BARREL

/-- Possible states of the persisted ledger file as seen by
`pd.read_excel` at the start of a merge. -/
inductive SheetFile
  | missing
  | corrupt
  | ok (df : List Row)
deriving DecidableEq

/-- Ledger read of src/main.py lines 211-215 and src/main_daily.py lines
196-200: only FileNotFoundError is caught (yielding an empty sheet); any
other read failure (malformed file) propagates to the caller. -/
def readSheet : SheetFile → Except String (List Row)
  | SheetFile.missing => Except.ok []
  | SheetFile.corrupt => Except.error "malformed ledger file"
  | SheetFile.ok df => Except.ok df

/-- Merge entry point including the ledger read, as executed by
`update_sheet`: a missing file is replaced by the empty sheet, a malformed
file aborts. -/
def updateSheetE (target : Nat) (file : SheetFile) (brentDate : Nat) (brent : Rat)
    (dieselDate : Nat) (diesel : Rat) : Except String (List Row) :=
  match readSheet file with
  | Except.error e => Except.error e
  | Except.ok df => Except.ok (updateSheet target df brentDate brent dieselDate diesel)

/-- Outcome of one run-cycle: the persisted sheet state, the heartbeat
record written, and the value returned to (or the error re-raised at) the
caller. -/
structure RunOutcome where
  sheet : SheetFile
  hb : Heartbeat
  ret : Except String Nat

/-- Run-cycle `run_consulta` of src/main.py lines 267-296 (the
src/main_daily.py entry block at lines 250-274 has the same shape): read
and merge the sheet, persist it, then on an email day attempt the
notification; a notify failure is caught locally, recorded into the
heartbeat as a failure, and the function still returns the reference date
normally. A read failure propagates after a failure heartbeat. -/
def runConsulta (target : Nat) (file : SheetFile) (brentDate : Nat) (brent : Rat)
    (dieselDate : Nat) (diesel : Rat) (sendEmailIfDay : Bool)
    (notifyResult : Except String Unit) (now today : Nat) (hb0 : Heartbeat) : RunOutcome :=
  match readSheet file with
  | Except.error e =>
    { sheet := file, hb := writeHeartbeat false (some e) now today hb0
      ret := Except.error e }
  | Except.ok df =>
    let refDate := max brentDate dieselDate
    let df2 := updateSheet target df brentDate brent dieselDate diesel
    if sendEmailIfDay && isEmailDay target refDate then
      match notifyResult with
      | Except.error e =>
        { sheet := SheetFile.ok df2, hb := writeHeartbeat false (some e) now today hb0
          ret := Except.ok refDate }
      | Except.ok _ =>
        { sheet := SheetFile.ok df2, hb := writeHeartbeat true none now today hb0
          ret := Except.ok refDate }
    else
      { sheet := SheetFile.ok df2, hb := writeHeartbeat true none now today hb0
        ret := Except.ok refDate }

/-- Reporting-day gating invariant of a row: each spread cell is populated
exactly when the row's email flag is 1. -/
def spreadOk (r : Row) : Prop :=
  (r.spreadAbs.isSome = true ↔ r.emailFlag = 1) ∧ (r.spreadPct.isSome = true ↔ r.emailFlag = 1)

/-! Helper lemmas about the embedded operations. -/

lemma updateLastRow_map_data (df : List Row) (refDate : Nat) (b d : Rat) :
    (updateLastRow df refDate b d).map (fun r => r.data) = df.map (fun r => r.data) := by
  induction df with
  | nil => rfl
  | cons r rs ih =>
    simp only [updateLastRow]
    by_cases h1 : rs.any (fun s => s.data == refDate) = true
    · simp [h1, ih]
    · by_cases h2 : (r.data == refDate) = true
      · simp [h1, h2, refreshSpread]
      · simp [h1, h2]

lemma updateLastRow_length (df : List Row) (refDate : Nat) (b d : Rat) :
    (updateLastRow df refDate b d).length = df.length := by
  have h := congrArg List.length (updateLastRow_map_data df refDate b d)
  simpa using h

lemma backfillRows_map_data (target : Nat) (uE : Bool) (today : Nat) (b d : Rat)
    (lastDate : Nat) :
    (backfillRows target uE today b d lastDate).map (fun r => r.data)
      = List.range' (lastDate + 1) (today - lastDate) := by
  simp only [backfillRows, List.map_map]
  rw [List.range'_eq_map_range]
  rfl

lemma foldl_max_range' (n : Nat) : ∀ (a j : Nat),
    (List.range' a (n + 1)).foldl max j = max j (a + n) := by
  induction n with
  | zero => intro a j; simp [List.range'_succ]
  | succ m ih =>
    intro a j
    rw [List.range'_succ, List.foldl_cons, ih]
    omega

lemma maxDate_of_range' (df : List Row) (a n : Nat)
    (h : df.map (fun r => r.data) = List.range' a (n + 1)) :
    maxDate df = a + n := by
  unfold maxDate
  rw [h, foldl_max_range']
  omega

lemma any_data_iff (df : List Row) (x : Nat) :
    (df.any (fun r => r.data == x) = true) ↔ x ∈ df.map (fun r => r.data) := by
  simp [List.any_eq_true, List.mem_map]

lemma range'_append_one (a p q : Nat) :
    List.range' a p ++ List.range' (a + p) q = List.range' a (p + q) := by
  have h := List.range'_append a p q 1
  simp only [Nat.one_mul] at h
  rw [Nat.add_comm q p] at h
  exact h

lemma step2_map_data (target : Nat) (uE : Bool) (today : Nat) (b d : Rat)
    (df1 : List Row) (a m fallbackDate : Nat)
    (h : df1.map (fun r => r.data) = List.range' a (m + 1)) (htoday : a + m ≤ today) :
    ((df1 ++ backfillRows target uE today b d
        (if df1 = [] then fallbackDate else maxDate df1)).map (fun r => r.data))
      = List.range' a (today - a + 1) := by
  have hne : df1 ≠ [] := by
    intro hnil
    rw [hnil] at h
    simp only [List.map_nil] at h
    exact absurd h.symm (by simp)
  rw [if_neg hne, maxDate_of_range' df1 a m h, List.map_append, h, backfillRows_map_data]
  have hstep : a + m + 1 = a + (m + 1) := by omega
  rw [hstep, range'_append_one]
  congr 1
  omega

/-! Claim C1. -/

/-- C1 (amended): the claim's unconditional gap-free invariant fails on
the code (see the counterexample below), because
`update_sheet_with_backfill` backfills only from the sheet's maximum date
as it stands AFTER the new observation row has been appended; a reference
date two or more days past the previous last row leaves the days in
between absent forever. Amended statement: if the ledger is contiguous
with one row per date over a..a+n, the reference date max(brentDate,
dieselDate) lies between a and a+n+1 (at most one day past the last row)
and is not in the future, and the run executes on a day `today` no earlier
than the last row, then the run-cycle's ledger has exactly one row per
date over a..today, and exactly today-(a+n) new rows were added — which is
N+1 when the run follows the previous one after N strictly intervening
calendar days (today = a+n+N+1). -/
theorem C1_gap_free_amended (target : Nat) (uE : Bool) (today a n bD dD : Nat) (b d : Rat)
    (df : List Row)
    (hdf : df.map (fun r => r.data) = List.range' a (n + 1))
    (h1 : a ≤ max bD dD) (h2 : max bD dD ≤ a + n + 1)
    (h3 : a + n ≤ today) (h4 : max bD dD ≤ today) :
    (updateSheetWithBackfill target uE today df bD b dD d).map (fun r => r.data)
      = List.range' a (today - a + 1)
  ∧ (updateSheetWithBackfill target uE today df bD b dD d).length
      = df.length + (today - (a + n)) := by
  have hres : (updateSheetWithBackfill target uE today df bD b dD d).map (fun r => r.data)
      = List.range' a (today - a + 1) := by
    by_cases hmem : df.any (fun r => r.data == max bD dD) = true
    · have hmap1 : (if shouldSendEmail target uE today (max bD dD) then
          updateLastRow df (max bD dD) b d else df).map (fun r => r.data)
          = List.range' a (n + 1) := by
        split
        · rw [updateLastRow_map_data]; exact hdf
        · exact hdf
      simp only [updateSheetWithBackfill]
      rw [if_pos hmem]
      exact step2_map_data target uE today b d _ a n (max bD dD) hmap1 h3
    · have hRval : max bD dD = a + n + 1 := by
        by_contra hne
        apply hmem
        rw [any_data_iff, hdf, List.mem_range']
        exact ⟨max bD dD - a, by omega, by omega⟩
      have hmap1 : (df ++ [mkNewRow (max bD dD) b d
          (if shouldSendEmail target uE today (max bD dD) then 1 else 0)]).map
            (fun r => r.data)
          = List.range' a (n + 1 + 1) := by
        rw [List.map_append, hdf]
        simp only [List.map_cons, List.map_nil, mkNewRow]
        rw [hRval]
        have hconcat : List.range' a (n + 1 + 1) = List.range' a (n + 1) ++ [a + n + 1] := by
          rw [List.range'_concat]
          simp
          omega
        rw [hconcat]
      simp only [updateSheetWithBackfill]
      rw [if_neg hmem]
      exact step2_map_data target uE today b d _ a (n + 1) (max bD dD) hmap1 (by omega)
  refine ⟨hres, ?_⟩
  have hlen := congrArg List.length hres
  simp only [List.length_map, List.length_range'] at hlen
  have hlen0 := congrArg List.length hdf
  simp only [List.length_map, List.length_range'] at hlen0
  omega

/-- C1 witness: a contiguous one-row ledger [5], observation day 6, run
day 8: the run yields one row per date over 5..8, adding 3 rows. -/
theorem C1_gap_free_amended_witness :
    (updateSheetWithBackfill 0 true 8 [mkNewRow 5 1 1 0] 6 1 6 1).map (fun r => r.data)
      = List.range' 5 (8 - 5 + 1)
  ∧ (updateSheetWithBackfill 0 true 8 [mkNewRow 5 1 1 0] 6 1 6 1).length
      = [mkNewRow 5 1 1 0].length + (8 - (5 + 0)) :=
  C1_gap_free_amended 0 true 8 5 0 6 6 1 1 [mkNewRow 5 1 1 0]
    (by decide) (by omega) (by omega) (by omega) (by omega)

/-- C1 counterexample: a first run-cycle executed on day 10 (observation
day 10, fresh ledger) yields the row set {10}; a second run-cycle on day
13 with observation day 12 — two successful run-cycles separated by N = 2
calendar days (11, 12) with no intervening run — yields rows dated
[10, 12, 13]: only 2 new rows instead of the claimed N + 1 = 3, and the
calendar date 11 between the first and the last row is absent from the
ledger. -/
theorem C1_counterexample :
    ((updateSheetWithBackfill 4 true 13
        (updateSheetWithBackfill 4 true 10 [] 10 1 10 1) 12 1 12 1).map (fun r => r.data)
      = [10, 12, 13])
  ∧ 11 ∉ ((updateSheetWithBackfill 4 true 13
        (updateSheetWithBackfill 4 true 10 [] 10 1 10 1) 12 1 12 1).map (fun r => r.data)) := by
  decide

/-! Claim C2. -/

lemma spreadOk_mkNewRow (refDate : Nat) (b d : Rat) (c : Bool) :
    spreadOk (mkNewRow refDate b d (if c then 1 else 0)) := by
  cases c <;> simp [spreadOk, mkNewRow]

lemma spreadOk_refreshSpread (r : Row) (b d : Rat) :
    spreadOk (refreshSpread r b d) := by
  simp [spreadOk, refreshSpread]

lemma updateLastRow_spreadOk (df : List Row) (refDate : Nat) (b d : Rat)
    (h : ∀ r ∈ df, spreadOk r) :
    ∀ r ∈ updateLastRow df refDate b d, spreadOk r := by
  induction df with
  | nil => simp [updateLastRow]
  | cons r rs ih =>
    intro s hs
    simp only [updateLastRow] at hs
    by_cases h1 : rs.any (fun t => t.data == refDate) = true
    · rw [if_pos h1] at hs
      rcases List.mem_cons.mp hs with h2 | h2
      · exact h2 ▸ h r (by simp)
      · exact ih (fun t ht => h t (by simp [ht])) s h2
    · rw [if_neg h1] at hs
      by_cases h2 : (r.data == refDate) = true
      · rw [if_pos h2] at hs
        rcases List.mem_cons.mp hs with h3 | h3
        · exact h3 ▸ spreadOk_refreshSpread r b d
        · exact h s (by simp [h3])
      · rw [if_neg h2] at hs
        exact h s hs

lemma backfillRows_spreadOk (target : Nat) (uE : Bool) (today : Nat) (b d : Rat)
    (lastDate : Nat) :
    ∀ r ∈ backfillRows target uE today b d lastDate, spreadOk r := by
  intro r hr
  simp only [backfillRows, List.mem_map] at hr
  obtain ⟨k, _, hk⟩ := hr
  exact hk ▸ spreadOk_mkNewRow _ b d _

/-- C2 (confirmed): the reporting-day gating invariant — each spread cell
is populated iff the row's email flag is set — is preserved by both merge
entry points (the backfill variant includes the synthetic catch-up rows,
and the metric recomputation does not touch these stored cells). -/
theorem C2_spread_gating (target : Nat) (uE : Bool) (today bD dD : Nat) (b d : Rat)
    (df : List Row) (hdf : ∀ r ∈ df, spreadOk r) :
    (∀ r ∈ updateSheet target df bD b dD d, spreadOk r)
  ∧ (∀ r ∈ updateSheetWithBackfill target uE today df bD b dD d, spreadOk r) := by
  constructor
  · intro r hr
    simp only [updateSheet] at hr
    by_cases hmem : df.any (fun s => s.data == max bD dD) = true
    · rw [if_pos hmem] at hr
      by_cases hday : isEmailDay target (max bD dD) = true
      · rw [if_pos hday] at hr
        exact updateLastRow_spreadOk df _ b d hdf r hr
      · rw [if_neg hday] at hr
        exact hdf r hr
    · rw [if_neg hmem] at hr
      rcases List.mem_append.mp hr with h | h
      · exact hdf r h
      · simp only [List.mem_singleton] at h
        exact h ▸ spreadOk_mkNewRow _ b d _
  · intro r hr
    simp only [updateSheetWithBackfill] at hr
    rcases List.mem_append.mp hr with h | h
    · by_cases hmem : df.any (fun s => s.data == max bD dD) = true
      · rw [if_pos hmem] at h
        by_cases hday : shouldSendEmail target uE today (max bD dD) = true
        · rw [if_pos hday] at h
          exact updateLastRow_spreadOk df _ b d hdf r h
        · rw [if_neg hday] at h
          exact hdf r h
      · rw [if_neg hmem] at h
        rcases List.mem_append.mp h with h2 | h2
        · exact hdf r h2
        · simp only [List.mem_singleton] at h2
          exact h2 ▸ spreadOk_mkNewRow _ b d _
    · exact backfillRows_spreadOk target uE today b d _ r h

/-- C2 witness: both merge operations on a fresh ledger satisfy the
gating invariant everywhere. -/
theorem C2_spread_gating_witness :
    (∀ r ∈ updateSheet 4 [] 3 1 3 1, spreadOk r)
  ∧ (∀ r ∈ updateSheetWithBackfill 4 true 3 [] 3 1 3 1, spreadOk r) :=
  C2_spread_gating 4 true 3 3 3 1 1 [] (by simp)

/-! Claim C3. -/

lemma foldl_max_le_init (l : List Nat) : ∀ j, j ≤ l.foldl max j := by
  induction l with
  | nil => intro j; simp
  | cons a t ih =>
    intro j
    rw [List.foldl_cons]
    exact le_trans (le_max_left j a) (ih (max j a))

lemma mem_le_foldl_max (l : List Nat) : ∀ j x, x ∈ l → x ≤ l.foldl max j := by
  induction l with
  | nil => intro j x hx; simp at hx
  | cons a t ih =>
    intro j x hx
    rw [List.foldl_cons]
    rcases List.mem_cons.mp hx with rfl | h
    · exact le_trans (le_max_right j x) (foldl_max_le_init t (max j x))
    · exact ih (max j a) x h

lemma maxDate_ge (df : List Row) (r : Row) (hr : r ∈ df) : r.data ≤ maxDate df := by
  unfold maxDate
  exact mem_le_foldl_max _ 0 r.data (List.mem_map.mpr ⟨r, hr, rfl⟩)

lemma backfillRows_countP_refDate (target : Nat) (uE : Bool) (today : Nat) (b d : Rat)
    (lastDate refDate : Nat) (h : refDate ≤ lastDate) :
    (backfillRows target uE today b d lastDate).countP (fun r => r.data == refDate) = 0 := by
  rw [List.countP_eq_zero]
  intro r hr
  simp only [backfillRows, List.mem_map] at hr
  obtain ⟨k, _, hk⟩ := hr
  rw [← hk]
  simp only [mkNewRow, beq_iff_eq]
  omega

lemma countP_data_eq_of_map_data_eq (df1 df2 : List Row) (p : Nat → Bool)
    (h : df1.map (fun r => r.data) = df2.map (fun r => r.data)) :
    df1.countP (fun r => p r.data) = df2.countP (fun r => p r.data) := by
  have h1 := congrArg (List.countP p) h
  simpa [List.countP_map, Function.comp] using h1

/-- C3 (confirmed): merging the same observation twice into a fresh ledger
yields exactly one row; whenever a row for the reference date already
exists, `update_sheet` adds no row at all, and the backfill variant adds
no further row for the reference date (its synthetic rows are all dated
strictly after the sheet's maximum date). -/
theorem C3_merge_idempotent (target : Nat) (uE : Bool) (today bD dD : Nat) (b d : Rat)
    (df : List Row)
    (hmem : df.any (fun r => r.data == max bD dD) = true) :
    (updateSheet target (updateSheet target [] bD b dD d) bD b dD d).length = 1
  ∧ (updateSheet target df bD b dD d).length = df.length
  ∧ (updateSheetWithBackfill target uE today df bD b dD d).countP
        (fun r => r.data == max bD dD)
      = df.countP (fun r => r.data == max bD dD) := by
  obtain ⟨r0, hr0, hr0beq⟩ := List.any_eq_true.mp hmem
  have hr0d : r0.data = max bD dD := beq_iff_eq.mp hr0beq
  refine ⟨?_, ?_, ?_⟩
  · have hfresh : updateSheet target [] bD b dD d
        = [mkNewRow (max bD dD) b d (if isEmailDay target (max bD dD) then 1 else 0)] := by
      simp [updateSheet]
    rw [hfresh]
    simp only [updateSheet]
    have hany : ([mkNewRow (max bD dD) b d
        (if isEmailDay target (max bD dD) then 1 else 0)].any
          (fun r => r.data == max bD dD)) = true := by
      simp [mkNewRow]
    rw [if_pos hany]
    split
    · rw [updateLastRow_length]
      rfl
    · rfl
  · simp only [updateSheet]
    rw [if_pos hmem]
    split
    · exact updateLastRow_length df _ b d
    · rfl
  · simp only [updateSheetWithBackfill]
    rw [if_pos hmem, List.countP_append]
    have hdfne : df ≠ [] := List.ne_nil_of_mem hr0
    by_cases hsend : shouldSendEmail target uE today (max bD dD) = true
    · rw [if_pos hsend]
      have hne : updateLastRow df (max bD dD) b d ≠ [] := by
        intro hnil
        apply hdfne
        have hl := congrArg List.length hnil
        rw [updateLastRow_length] at hl
        exact List.length_eq_zero.mp hl
      have hmd : maxDate (updateLastRow df (max bD dD) b d) = maxDate df := by
        unfold maxDate
        rw [updateLastRow_map_data]
      rw [if_neg hne, hmd,
        backfillRows_countP_refDate target uE today b d (maxDate df) (max bD dD)
          (hr0d ▸ maxDate_ge df r0 hr0)]
      rw [countP_data_eq_of_map_data_eq _ df (fun x => x == max bD dD)
        (updateLastRow_map_data df _ b d)]
      simp
    · rw [if_neg hsend, if_neg hdfne,
        backfillRows_countP_refDate target uE today b d (maxDate df) (max bD dD)
          (hr0d ▸ maxDate_ge df r0 hr0)]
      simp

/-- C3 witness: a one-row ledger already carrying the reference date 3. -/
theorem C3_merge_idempotent_witness :
    (updateSheet 4 (updateSheet 4 [] 3 1 3 1) 3 1 3 1).length = 1
  ∧ (updateSheet 4 [mkNewRow 3 1 1 0] 3 1 3 1).length = [mkNewRow 3 1 1 0].length
  ∧ (updateSheetWithBackfill 4 true 9 [mkNewRow 3 1 1 0] 3 1 3 1).countP
        (fun r => r.data == max 3 3)
      = [mkNewRow 3 1 1 0].countP (fun r => r.data == max 3 3) :=
  C3_merge_idempotent 4 true 9 3 3 1 1 [mkNewRow 3 1 1 0] (by decide)

/-! Claim C4. -/

/-- C4 (amended): every synthetic row appended by the backfill loop
carries the latest known benchmark and distillate prices verbatim (no
interpolation) in every configuration; the claim's second half — the
reporting flag and spread being determined by evaluating the schedule
rule against the row's OWN date — holds only in the
USE_EXECUTION_DAY_FOR_EMAIL=0 configuration. Under the default
configuration the rule is evaluated against the execution day instead
(see the counterexample). -/
theorem C4_backfill_rows_amended (target : Nat) (uE : Bool) (today lastDate : Nat)
    (b d : Rat) (r : Row) (hr : r ∈ backfillRows target uE today b d lastDate) :
    r.petroleo = b ∧ r.diesel = d
  ∧ (uE = false →
      r.emailFlag = (if isEmailDay target r.data then 1 else 0)
    ∧ r.spreadAbs = (if isEmailDay target r.data then some (d - b) else none)
    ∧ r.spreadPct = (if isEmailDay target r.data then some (d / b - 1) else none)) := by
  simp only [backfillRows, List.mem_map] at hr
  obtain ⟨k, _, hk⟩ := hr
  subst hk
  refine ⟨rfl, rfl, ?_⟩
  rintro rfl
  by_cases hday : isEmailDay target (lastDate + 1 + k) = true
  · simp [mkNewRow, shouldSendEmail, hday]
  · simp [mkNewRow, shouldSendEmail, hday]

/-- C4 witness: in the observation-date configuration, the backfilled row
for day 11 (a Friday, with Friday = 4 configured) carries the latest
prices 1 and 2 verbatim and its flag and spread follow from its own
date. -/
theorem C4_backfill_rows_amended_witness :
    (mkNewRow 11 1 2 1).petroleo = 1 ∧ (mkNewRow 11 1 2 1).diesel = 2
  ∧ (false = false →
      (mkNewRow 11 1 2 1).emailFlag = (if isEmailDay 4 (mkNewRow 11 1 2 1).data then 1 else 0)
    ∧ (mkNewRow 11 1 2 1).spreadAbs
        = (if isEmailDay 4 (mkNewRow 11 1 2 1).data then some (2 - 1) else none)
    ∧ (mkNewRow 11 1 2 1).spreadPct
        = (if isEmailDay 4 (mkNewRow 11 1 2 1).data then some (2 / 1 - 1) else none)) :=
  C4_backfill_rows_amended 4 false 11 8 1 2 (mkNewRow 11 1 2 1) (by
    simp only [backfillRows, List.mem_map]
    refine ⟨2, by simp, ?_⟩
    norm_num [shouldSendEmail, isEmailDay, weekday])

/-- C4 counterexample: under the default configuration
(USE_EXECUTION_DAY_FOR_EMAIL=1), with Friday (= 4) the reporting weekday,
a run executed on day 11 (a Friday) over a ledger ending on day 8 marks
EVERY backfilled row (days 9, 10 and 11) as a reporting day, although day
9 is not a reporting day: each backfilled date is NOT independently
tested against the schedule rule. -/
theorem C4_counterexample :
    ((backfillRows 4 true 11 1 1 8).map (fun r => (r.data, r.emailFlag))
      = [(9, 1), (10, 1), (11, 1)])
  ∧ isEmailDay 4 9 = false := by
  decide

/-! Claim C5. -/

/-- C5 (confirmed): from the empty heartbeat store, a failure yields
Degraded; a subsequent success yields Operational and clears the error
message; a further failure on a later (or same) day yields Degraded again
while the recorded last_success is preserved unchanged. The
`statusFromHeartbeat` reader realises exactly the claim's state
definitions: Operational iff last_success is present and last_error is
absent or strictly older, Degraded iff last_error is present and
last_success is absent or not newer. -/
theorem C5_heartbeat_transitions (t1 t2 t3 n1 n2 n3 : Nat) (h : t2 ≤ t3) :
    statusFromHeartbeat (writeHeartbeat false (some "x") n1 t1 emptyHeartbeat)
      = Status.degraded
  ∧ statusFromHeartbeat (writeHeartbeat true none n2 t2
        (writeHeartbeat false (some "x") n1 t1 emptyHeartbeat)) = Status.operational
  ∧ (writeHeartbeat true none n2 t2
        (writeHeartbeat false (some "x") n1 t1 emptyHeartbeat)).lastErrorMsg = ""
  ∧ statusFromHeartbeat (writeHeartbeat false (some "y") n3 t3
        (writeHeartbeat true none n2 t2
          (writeHeartbeat false (some "x") n1 t1 emptyHeartbeat))) = Status.degraded
  ∧ (writeHeartbeat false (some "y") n3 t3
        (writeHeartbeat true none n2 t2
          (writeHeartbeat false (some "x") n1 t1 emptyHeartbeat))).lastSuccess = some t2 := by
  refine ⟨rfl, rfl, rfl, ?_, rfl⟩
  have hlt : ¬ (t3 < t2) := by omega
  simp [writeHeartbeat, emptyHeartbeat, statusFromHeartbeat, hlt]

/-- C5 witness: the transition chain at concrete days 1, 2, 3. -/
theorem C5_heartbeat_transitions_witness :
    statusFromHeartbeat (writeHeartbeat false (some "x") 10 1 emptyHeartbeat)
      = Status.degraded
  ∧ statusFromHeartbeat (writeHeartbeat true none 11 2
        (writeHeartbeat false (some "x") 10 1 emptyHeartbeat)) = Status.operational
  ∧ (writeHeartbeat true none 11 2
        (writeHeartbeat false (some "x") 10 1 emptyHeartbeat)).lastErrorMsg = ""
  ∧ statusFromHeartbeat (writeHeartbeat false (some "y") 12 3
        (writeHeartbeat true none 11 2
          (writeHeartbeat false (some "x") 10 1 emptyHeartbeat))) = Status.degraded
  ∧ (writeHeartbeat false (some "y") 12 3
        (writeHeartbeat true none 11 2
          (writeHeartbeat false (some "x") 10 1 emptyHeartbeat))).lastSuccess = some 2 :=
  C5_heartbeat_transitions 1 2 3 10 11 12 (by omega)

/-! Claim C6. -/

/-- C6 counterexample: an unknown unit does not fail with a configuration
error — `dieselUsdBbl 10 "LITER"` silently applies the GALLON conversion
and returns 420, exactly as for unit "GAL". -/
theorem C6_counterexample :
    dieselUsdBbl 10 "LITER" = 420
  ∧ dieselUsdBbl 10 "LITER" = dieselUsdBbl 10 "GAL" := by
  constructor
  · unfold dieselUsdBbl
    rw [if_neg (by decide), if_neg (by decide)]
    norm_num [GALLON_PER_BARREL]
  · unfold dieselUsdBbl
    rw [if_neg (by decide), if_neg (by decide), if_pos rfl]

/-- C6 (amended): `to_barrel_price` is the identity on unit "BBL" and
multiplies by the fixed 42 gallons-per-barrel constant on unit "GAL"; for
every other unit it does NOT fail — it silently falls back to the GALLON
behaviour and multiplies by 42. -/
theorem C6_unit_conversion_amended (value : Rat) (unit : String) :
    dieselUsdBbl value unit
      = if unit = "BBL" then value else value * GALLON_PER_BARREL := by
  unfold dieselUsdBbl
  by_cases h : unit = "GAL"
  · subst h
    rw [if_pos rfl, if_neg (by decide)]
  · rw [if_neg h]

/-! Claim C7. -/

/-- C7 counterexample: a malformed (corrupt) persisted ledger is NOT
treated as an empty ledger: the merge entry point returns the propagated
read error, unlike the missing-file case. -/
theorem C7_counterexample :
    updateSheetE 4 SheetFile.corrupt 3 1 3 1 = Except.error "malformed ledger file"
  ∧ updateSheetE 4 SheetFile.corrupt 3 1 3 1 ≠ updateSheetE 4 SheetFile.missing 3 1 3 1 := by
  constructor
  · rfl
  · have h1 : updateSheetE 4 SheetFile.corrupt 3 1 3 1
        = Except.error "malformed ledger file" := rfl
    have h2 : updateSheetE 4 SheetFile.missing 3 1 3 1
        = Except.ok (updateSheet 4 [] 3 1 3 1) := rfl
    intro h
    rw [h1, h2] at h
    exact Except.noConfusion h

/-- C7 (amended): a missing ledger file is read as the empty ledger and
the merge proceeds normally; a malformed ledger file is a fatal error
propagated to the caller — the run-cycle aborts (after recording a
heartbeat failure), it is not treated as an empty ledger. -/
theorem C7_read_failure_amended (target bD dD : Nat) (b d : Rat) :
    updateSheetE target SheetFile.missing bD b dD d
      = Except.ok (updateSheet target [] bD b dD d)
  ∧ updateSheetE target SheetFile.corrupt bD b dD d
      = Except.error "malformed ledger file"
  ∧ (runConsulta target SheetFile.corrupt bD b dD d true (Except.ok ()) 0 0
        emptyHeartbeat).ret = Except.error "malformed ledger file"
  ∧ (runConsulta target SheetFile.corrupt bD b dD d true (Except.ok ()) 0 0
        emptyHeartbeat).hb.lastError = some 0 :=
  ⟨rfl, rfl, rfl, rfl⟩

/-! Claim C8. -/

lemma rollingMean_getElem (w : Nat) (xs : List Rat) (i : Nat) (hi : i < xs.length) :
    (rollingMean w xs)[i]? =
      some (if w ≤ i + 1 then some (((xs.drop (i + 1 - w)).take w).sum / (w : Rat))
            else none) := by
  unfold rollingMean
  rw [List.getElem?_map, List.getElem?_range hi, Option.map_some']
  by_cases h : w ≤ i + 1
  · rw [if_pos h, if_pos h, List.drop_take]
    have harg : i + 1 - (i + 1 - w) = w := by omega
    rw [harg]
  · rw [if_neg h, if_neg h]

/-- C8 (confirmed): after the metric recomputation, the 7-row rolling mean
of the benchmark price at index i is the mean of the prices at indices
i-6..i and is defined exactly when i is at least 6; the 30-row rolling
mean is the analogue with a 30-row window (defined exactly when i is at
least 29). -/
theorem C8_rolling_means (df : List Row) (i : Nat) (hi : i < df.length) :
    ((6 ≤ i → (benchmarkMa7 df)[i]? =
        some (some ((((prices df).drop (i - 6)).take 7).sum / 7)))
    ∧ (i < 6 → (benchmarkMa7 df)[i]? = some none))
  ∧ ((29 ≤ i → (benchmarkMa30 df)[i]? =
        some (some ((((prices df).drop (i - 29)).take 30).sum / 30)))
    ∧ (i < 29 → (benchmarkMa30 df)[i]? = some none)) := by
  have hlen : i < (prices df).length := by simpa [prices] using hi
  have h7 := rollingMean_getElem 7 (prices df) i hlen
  have h30 := rollingMean_getElem 30 (prices df) i hlen
  refine ⟨⟨?_, ?_⟩, ?_, ?_⟩
  · intro h
    simp only [benchmarkMa7]
    rw [h7, if_pos (by omega)]
    have harg : i + 1 - 7 = i - 6 := by omega
    rw [harg]
    norm_num
  · intro h
    simp only [benchmarkMa7]
    rw [h7, if_neg (by omega)]
  · intro h
    simp only [benchmarkMa30]
    rw [h30, if_pos (by omega)]
    have harg : i + 1 - 30 = i - 29 := by omega
    rw [harg]
    norm_num
  · intro h
    simp only [benchmarkMa30]
    rw [h30, if_neg (by omega)]

/-- Ten-row sample ledger with benchmark prices 1..10 on days 0..9. -/
def sampleLedger : List Row :=
  [mkNewRow 0 1 1 0, mkNewRow 1 2 1 0, mkNewRow 2 3 1 0, mkNewRow 3 4 1 0,
   mkNewRow 4 5 1 0, mkNewRow 5 6 1 0, mkNewRow 6 7 1 0, mkNewRow 7 8 1 0,
   mkNewRow 8 9 1 0, mkNewRow 9 10 1 0]

/-- C8 witness: on the ten-row sample ledger with benchmark prices 1..10,
the 7-row rolling mean at 0-based index 6 equals (1+2+...+7)/7 = 4. -/
theorem C8_rolling_means_witness :
    (benchmarkMa7 sampleLedger)[6]? = some (some 4) := by
  have h := ((C8_rolling_means sampleLedger 6 (by decide)).1).1 (by omega)
  rw [h]
  norm_num [prices, sampleLedger, mkNewRow]

/-! Claim C9. -/

/-- C9 (confirmed): when the ledger merge and persist succeed but the
notification fails on a reporting day, the notify error is caught locally
(the run still returns the reference date instead of raising), it is
recorded into the heartbeat as a failure carrying the error message, and
the persisted ledger state is exactly the merged sheet — the ledger
update is not rolled back by the notify failure. -/
theorem C9_notify_failure_independent (target : Nat) (df : List Row)
    (bD dD now today : Nat) (b d : Rat) (e : String) (hb0 : Heartbeat)
    (hday : isEmailDay target (max bD dD) = true) :
    (runConsulta target (SheetFile.ok df) bD b dD d true (Except.error e) now today
        hb0).sheet = SheetFile.ok (updateSheet target df bD b dD d)
  ∧ (runConsulta target (SheetFile.ok df) bD b dD d true (Except.error e) now today
        hb0).hb = writeHeartbeat false (some e) now today hb0
  ∧ (runConsulta target (SheetFile.ok df) bD b dD d true (Except.error e) now today
        hb0).hb.lastError = some today
  ∧ (runConsulta target (SheetFile.ok df) bD b dD d true (Except.error e) now today
        hb0).hb.lastErrorMsg = e
  ∧ (runConsulta target (SheetFile.ok df) bD b dD d true (Except.error e) now today
        hb0).ret = Except.ok (max bD dD) := by
  have hrun : runConsulta target (SheetFile.ok df) bD b dD d true (Except.error e) now today
        hb0
      = { sheet := SheetFile.ok (updateSheet target df bD b dD d)
          hb := writeHeartbeat false (some e) now today hb0
          ret := Except.ok (max bD dD) } := by
    simp only [runConsulta, readSheet]
    rw [hday]
    simp
  rw [hrun]
  refine ⟨rfl, rfl, ?_, ?_, rfl⟩
  · simp [writeHeartbeat]
  · simp [writeHeartbeat]

/-- C9 witness: concrete run on reporting day 4 (a Friday) with a failing
notifier "boom". -/
theorem C9_notify_failure_independent_witness :
    (runConsulta 4 (SheetFile.ok []) 4 2 4 3 true (Except.error "boom") 0 7
        emptyHeartbeat).sheet = SheetFile.ok (updateSheet 4 [] 4 2 4 3)
  ∧ (runConsulta 4 (SheetFile.ok []) 4 2 4 3 true (Except.error "boom") 0 7
        emptyHeartbeat).hb = writeHeartbeat false (some "boom") 0 7 emptyHeartbeat
  ∧ (runConsulta 4 (SheetFile.ok []) 4 2 4 3 true (Except.error "boom") 0 7
        emptyHeartbeat).hb.lastError = some 7
  ∧ (runConsulta 4 (SheetFile.ok []) 4 2 4 3 true (Except.error "boom") 0 7
        emptyHeartbeat).hb.lastErrorMsg = "boom"
  ∧ (runConsulta 4 (SheetFile.ok []) 4 2 4 3 true (Except.error "boom") 0 7
        emptyHeartbeat).ret = Except.ok (max 4 4) :=
  C9_notify_failure_independent 4 [] 4 4 0 7 2 3 "boom" emptyHeartbeat (by decide)

/-! Claim C10. -/

lemma updateLastRow_split (refDate : Nat) (b d : Rat) (post : List Row) (r : Row)
    (hr : r.data = refDate) (hpost : ∀ s ∈ post, s.data ≠ refDate) :
    ∀ pre : List Row, updateLastRow (pre ++ r :: post) refDate b d
      = pre ++ refreshSpread r b d :: post := by
  intro pre
  induction pre with
  | nil =>
    simp only [List.nil_append, updateLastRow]
    have hanypost : ¬ ((post.any (fun s => s.data == refDate)) = true) := by
      rw [List.any_eq_true]
      rintro ⟨s, hs, hbeq⟩
      exact hpost s hs (beq_iff_eq.mp hbeq)
    rw [if_neg hanypost, if_pos (by simp [hr])]
  | cons p ps ih =>
    simp only [List.cons_append, updateLastRow, List.append_eq]
    have hanytail : ((ps ++ r :: post).any (fun s => s.data == refDate)) = true := by
      rw [List.any_eq_true]
      exact ⟨r, by simp, by simp [hr]⟩
    rw [if_pos hanytail]
    rw [ih]

/-- C10 (confirmed): when a row for the reference date already exists —
decomposed around its last occurrence, the one the source updates via
idx[-1] — and the reference date is a reporting day, the merge rewrites
exactly that row's email flag (to 1) and its two spread cells, recomputed
from the NEWLY supplied benchmark and distillate values (d - b and
d / b - 1); the row's date and stored prices, and every other row, are
left unchanged. In particular, the refreshed spread is computed from the
supplied values and need not equal the difference of the prices stored in
the row. -/
theorem C10_refresh_frame (target bD dD : Nat) (b d : Rat) (pre post : List Row) (r : Row)
    (hr : r.data = max bD dD) (hpost : ∀ s ∈ post, s.data ≠ max bD dD)
    (hday : isEmailDay target (max bD dD) = true) :
    updateSheet target (pre ++ r :: post) bD b dD d
      = pre ++
        { r with emailFlag := 1, spreadAbs := some (d - b), spreadPct := some (d / b - 1) }
          :: post := by
  have hmem : ((pre ++ r :: post).any (fun s => s.data == max bD dD)) = true := by
    rw [List.any_eq_true]
    exact ⟨r, by simp, by simp [hr]⟩
  simp only [updateSheet]
  rw [if_pos hmem, if_pos hday, updateLastRow_split (max bD dD) b d post r hr hpost pre]
  rfl

/-- C10 witness: a stored row with prices 100 and 120 (stored difference
20), refreshed on reporting day 5 with newly supplied values 90 and 130:
only the flag and spreads change, and the new absolute spread 130 - 90 =
40 differs from the stored-price difference. -/
theorem C10_refresh_frame_witness :
    updateSheet 5
        ([] ++ ({ data := 5, petroleo := 100, diesel := 120, emailFlag := 0, spreadAbs := none, spreadPct := none } : Row) :: [])
        5 90 5 130
      = [] ++
        ({ data := 5, petroleo := 100, diesel := 120, emailFlag := 1, spreadAbs := some (130 - 90), spreadPct := some (130 / 90 - 1) } : Row)
          :: [] :=
  C10_refresh_frame 5 5 5 90 130 [] []
    ({ data := 5, petroleo := 100, diesel := 120, emailFlag := 0, spreadAbs := none, spreadPct := none })
    (by decide) (by simp) (by decide)

end DailyDiesel
